import Mathlib

/-
Verification of the data-wrapper layer of the Discord-Duelist repository.

The definitions below are a shallow embedding of the Python modules
src/data_wrappers/utils.py, src/data_wrappers/user_status.py and
src/data_wrappers/game_status.py.  Redis state is modelled as explicit
values threaded through the functions; a redis key lookup that can miss
becomes Option, and a Python function that can raise becomes Except.
-/

/-- Identifier of a game session; GameId = str in data_types. -/
abbrev GameId := String

/-- Identifier of a user; UserId = int in data_types (only compared for equality here). -/
abbrev UserId := Nat

/-- Identifier of a Discord message; MessageId = int in data_types. -/
abbrev MessageId := Nat

/-- Exceptions the data wrappers raise: UserNotFound and GameNotFound from
the exceptions package, and the Python builtin ValueError that the
pipeline_watch wrapper raises by default when the watched key is missing and
no key_not_found_excepton argument was given.  ValueError subclasses neither
UserNotFound nor GameNotFound, so an except clause for those two does not
catch it. -/
inductive DbError where
  | userNotFound (user_id : UserId)
  | gameNotFound (game_id : GameId)
  | valueError (msg : String)
deriving DecidableEq, Repr

/-- The UserStatus.User dataclass of user_status.py. -/
structure User where
  active_games : List GameId
  queued_games : List GameId
  notifications : List GameId
  notification_id : Option MessageId := none
deriving DecidableEq, Repr

/-- The GameStatus.Game dataclass of game_status.py.  The usernames dict is
modelled as an association list; state is Literal[0, 1, 2]. -/
structure Game where
  state : Fin 3
  game_module_name : String
  starting_user : UserId
  all_users : List UserId
  pending_users : List UserId
  usernames : List (String × String)
deriving DecidableEq, Repr

/-- The method Game.get_accepted_users of game_status.py, verbatim: a list
comprehension over pending_users keeping the user ids that are not in
pending_users. -/
def Game.get_accepted_users (g : Game) : List UserId :=
  List.filter (fun user_id => decide (user_id ∉ g.pending_users)) g.pending_users

/-- Outcome of one call wrapped by the pipeline_watch decorator of utils.py. -/
inductive WatchOutcome (α : Type) where
  | ok (v : α)
  | keyNotFound
  | exhausted
deriving DecidableEq, Repr

/-- The while loop inside the pipeline_watch wrapper of utils.py for a call on
a key.  attempts i = some v means the i-th run of the wrapped body returns v;
attempts i = none means that run raises redis.WatchError because a conflicting
writer touched the watched key; keyExists i is the redis EXISTS check at the
top of iteration i.  The second component of the result counts how many times
the wrapped body was run.  The loop keeps the Python counter semantics: the
body runs while max_retries > -1, a WatchError decrements max_retries, and
once the counter is below zero the wrapper raises WatchError("Max retries
reached") without running the body again. -/
def pipeline_watch_loop {α : Type} (attempts : Nat → Option α) (keyExists : Nat → Bool)
    (max_retries : Int) (i : Nat) : WatchOutcome α × Nat :=
  if keyExists i then
    if _h : max_retries > -1 then
      match attempts i with
      | some v => (WatchOutcome.ok v, i + 1)
      | none => pipeline_watch_loop attempts keyExists (max_retries - 1) (i + 1)
    else (WatchOutcome.exhausted, i)
  else (WatchOutcome.keyNotFound, i)
termination_by (max_retries + 1).toNat
decreasing_by
  omega

/-- One call of a function wrapped by pipeline_watch, starting with a fresh
retry budget and run counter zero. -/
def pipeline_watch_call {α : Type} (attempts : Nat → Option α) (keyExists : Nat → Bool)
    (max_retries : Int) : WatchOutcome α × Nat :=
  pipeline_watch_loop attempts keyExists max_retries 0

namespace UserStatus

/-- UserStatus.__max_active_games in user_status.py. -/
def max_active_games : Nat := 6

/-- UserStatus.__max_queued_games in user_status.py. -/
def max_queued_games : Nat := 6

/-- UserStatus.__join_game_new_user: creates a record with the game id as the
sole active game. -/
def join_game_new_user (game_id : GameId) : User :=
  { active_games := [game_id], queued_games := [], notifications := [],
    notification_id := none }

/-- UserStatus.__join_game_existing_user, with the two bound class constants
made explicit parameters (the source fixes maxA = maxQ = 6).  Returns the
updated record together with the boolean the Python function returns. -/
def join_game_existing_user (maxA maxQ : Nat) (u : User) (game_id : GameId) :
    User × Bool :=
  if game_id ∉ u.active_games ∧ game_id ∉ u.queued_games then
    if u.active_games.length ≥ maxA then
      if u.queued_games.length ≥ maxQ then (u, false)
      else ({ u with queued_games := u.queued_games ++ [game_id] }, true)
    else ({ u with active_games := u.active_games ++ [game_id] }, true)
  else (u, true)

/-- UserStatus.join_game on the record stored for the user (none when the
redis EXISTS check fails). -/
def join_game (maxA maxQ : Nat) (st : Option User) (game_id : GameId) :
    Option User × Bool :=
  match st with
  | some u =>
    let r := join_game_existing_user maxA maxQ u game_id
    (some r.1, r.2)
  | none => (some (join_game_new_user game_id), true)

/-- UserStatus.check_users_are_ready: walks the user ids in order; a user
whose record lacks the game makes it return False at once, a user with no
record at all makes it raise UserNotFound. -/
def check_users_are_ready (db : UserId → Option User) :
    List UserId → GameId → Except DbError Bool
  | [], _ => Except.ok true
  | user_id :: rest, game_id =>
    match db user_id with
    | some user_status =>
      if game_id ∉ user_status.active_games then Except.ok false
      else check_users_are_ready db rest game_id
    | none => Except.error (DbError.userNotFound user_id)

/-- UserStatus.add_notifiction.  The source builds the redis JSON arrappend
command as a coroutine but never awaits it, so no command reaches the store
and the stored record is unchanged; only the UserNotFound check is effective. -/
def add_notifiction (user_id : UserId) (st : Option User) (game_id : GameId) :
    Except DbError User :=
  match st with
  | none => Except.error (DbError.userNotFound user_id)
  | some user_status =>
    if game_id ∉ user_status.notifications then
      Except.ok user_status
    else
      Except.ok user_status

/-- UserStatus.remove_notification.  The source builds the redis JSON arrpop
command as a coroutine but never awaits it, so the stored record is unchanged;
the returned boolean still reports whether the entry was found. -/
def remove_notification (user_id : UserId) (st : Option User) (game_id : GameId) :
    Except DbError (User × Bool) :=
  match st with
  | none => Except.error (DbError.userNotFound user_id)
  | some user_status =>
    if game_id ∈ user_status.notifications then
      Except.ok (user_status, true)
    else
      Except.ok (user_status, false)

/-- Behaviour the docstrings of add_notifiction describe (an awaited
arrappend): append the game id to notifications when it is not already there.
Used to state what the stored record would have to look like for the claim
about the stored list to hold. -/
def add_notifiction_documented (user_id : UserId) (st : Option User)
    (game_id : GameId) : Except DbError User :=
  match st with
  | none => Except.error (DbError.userNotFound user_id)
  | some user_status =>
    if game_id ∉ user_status.notifications then
      Except.ok { user_status with
                  notifications := user_status.notifications ++ [game_id] }
    else
      Except.ok user_status

end UserStatus

namespace UserStatus

/-- The while loop of UserStatus.__move_up_games: while active_games has room
and queued_games is non-empty, pop the head of queued_games and append it to
active_games, recording each moved id.  Returns (active_games, queued_games,
moved_games). -/
def move_up_games_loop (maxA : Nat) (active queued moved : List GameId) :
    List GameId × List GameId × List GameId :=
  if active.length < maxA then
    match queued with
    | [] => (active, queued, moved)
    | q :: rest =>
      move_up_games_loop maxA (active ++ [q]) rest (moved ++ [q])
  else (active, queued, moved)
termination_by queued.length

/-- UserStatus.__move_up_games on the stored record of the user. -/
def move_up_games (maxA : Nat) (user_id : UserId) (st : Option User) :
    Except DbError (User × List GameId) :=
  match st with
  | none => Except.error (DbError.userNotFound user_id)
  | some user_status =>
    let r := move_up_games_loop maxA user_status.active_games
      user_status.queued_games []
    Except.ok ({ user_status with active_games := r.1, queued_games := r.2.1 },
      r.2.2)

/-- The arrpop the source issues inside __remove_game: the first occurrence
of the game id is removed from active_games when present there, else from
queued_games. -/
def remove_from_lists (user_status : User) (game_id : GameId) : User :=
  if game_id ∈ user_status.active_games then
    { user_status with active_games := user_status.active_games.erase game_id }
  else
    { user_status with queued_games := user_status.queued_games.erase game_id }

/-- UserStatus.__remove_game on the stored record of a user.  The function is
decorated with pipeline_watch(__pool, "user_id") and no third argument, so for
an absent record the wrapper's exists check fails and it raises the default
ValueError("key user_id not found in db") before the body runs; the body's own
raise UserNotFound is unreachable for an absent record in this sequential
model.  On a present record, GameNotFound when the game id is in neither
list; otherwise the first occurrence is removed from active_games when
present there, else from queued_games; a matching notifications entry is
removed too; when the pre-removal total of games is exactly one the whole
record is deleted, otherwise __move_up_games runs.  Returns the resulting
record (none when deleted), the promoted ids (none when the record was
deleted, as in the source) and whether a notification entry was removed. -/
def remove_game (maxA : Nat) (game_id : GameId) (user_id : UserId)
    (st : Option User) :
    Except DbError (Option User × Option (List GameId) × Bool) :=
  match st with
  | none => Except.error (DbError.valueError "key user_id not found in db")
  | some user_status =>
    if game_id ∉ user_status.active_games ∧ game_id ∉ user_status.queued_games
    then Except.error (DbError.gameNotFound game_id)
    else
      let afterRemoval : User := remove_from_lists user_status game_id
      let removed_notification : Bool := game_id ∈ user_status.notifications
      let afterNotif : User :=
        if game_id ∈ user_status.notifications then
          { afterRemoval with
            notifications := afterRemoval.notifications.erase game_id }
        else afterRemoval
      if user_status.active_games.length + user_status.queued_games.length = 1
      then Except.ok (none, none, removed_notification)
      else
        match move_up_games maxA user_id (some afterNotif) with
        | Except.ok r => Except.ok (some r.1, some r.2, removed_notification)
        | Except.error e => Except.error e

/-- Point update of the user database. -/
def updateDb (db : UserId → Option User) (user_id : UserId) (st : Option User) :
    UserId → Option User :=
  fun u => if u = user_id then st else db u

/-- Insertion into the moved_up_games accumulator; the source uses a Python
set, modelled as a duplicate-free list that keeps first insertion order. -/
def setInsert (acc : List GameId) (m : GameId) : List GameId :=
  if m ∈ acc then acc else acc ++ [m]

/-- The per-user loop of UserStatus.clear_game.  Each user is handled by
__remove_game on the evolving database; the loop catches exactly GameNotFound
and UserNotFound (printing and continuing with the remaining users), so any
other exception, in particular the ValueError the pipeline_watch wrapper
raises for a user with no record, escapes and aborts the whole batch with the
remaining users unprocessed.  Promoted ids are added to a set and users whose
notification entry was removed are appended to a list. -/
def clear_game_loop (maxA : Nat) (game_id : GameId) :
    List UserId → (UserId → Option User) → List GameId → List UserId →
    Except DbError ((UserId → Option User) × List GameId × List UserId)
  | [], db, moved, notified => Except.ok (db, moved, notified)
  | user :: rest, db, moved, notified =>
    match remove_game maxA game_id user (db user) with
    | Except.ok r =>
      let moved' := match r.2.1 with
        | some ids => List.foldl setInsert moved ids
        | none => moved
      let notified' := if r.2.2 then notified ++ [user] else notified
      clear_game_loop maxA game_id rest (updateDb db user r.1) moved' notified'
    | Except.error (DbError.gameNotFound _) =>
      clear_game_loop maxA game_id rest db moved notified
    | Except.error (DbError.userNotFound _) =>
      clear_game_loop maxA game_id rest db moved notified
    | Except.error e => Except.error e

/-- UserStatus.clear_game. -/
def clear_game (maxA : Nat) (db : UserId → Option User) (user_ids : List UserId)
    (game_id : GameId) :
    Except DbError ((UserId → Option User) × List GameId × List UserId) :=
  clear_game_loop maxA game_id user_ids db [] []

end UserStatus

namespace GameStatus

/-- Values stored in the game-status redis database: JSON game documents and
the plain integer written to shadow keys. -/
inductive RVal where
  | game (g : Game)
  | int (n : Int)
deriving DecidableEq, Repr

/-- State of the game-status redis database: the key space together with the
per-key expiry time (in seconds, none when the key does not expire). -/
structure GameDb where
  data : String → Option RVal
  expiry : String → Option Nat

/-- GameStatus.__get_shadow_key. -/
def get_shadow_key (game_id : GameId) : String :=
  "shadowKey:" ++ game_id

/-- GameStatus.add, with the randomly generated 16-character id passed in as
new_game_id: stores the game document under the new id, writes the shadow key
with value -1 and gives the shadow key the expiry time.  Returns the updated
database and the id, as the source returns the id. -/
def add (db : GameDb) (new_game_id : GameId) (game_status : Game)
    (expire_time : Nat) : GameDb × GameId :=
  let db1 : GameDb :=
    { db with data := fun k =>
        if k = new_game_id then some (RVal.game game_status) else db.data k }
  let db2 : GameDb :=
    { db1 with data := fun k =>
        if k = get_shadow_key new_game_id then some (RVal.int (-1))
        else db1.data k }
  let db3 : GameDb :=
    { db2 with expiry := fun k =>
        if k = get_shadow_key new_game_id then some expire_time
        else db2.expiry k }
  (db3, new_game_id)

/-- GameStatus.get: reconstructs the Game dataclass from the stored JSON
document, raising GameNotFound when the key holds no game document. -/
def get (db : GameDb) (game_id : GameId) : Except DbError Game :=
  match db.data game_id with
  | some (RVal.game g) => Except.ok g
  | _ => Except.error (DbError.gameNotFound game_id)

/-- GameStatus.user_accepted on an existing session (pipeline_watch raises
GameNotFound first when the key is absent; the claim is about existing
sessions).  When the user is pending, the source pops the entry at the index
of the user id and then reads back .pending_users, returning that list. -/
def user_accepted (g : Game) (user_id : UserId) :
    Except DbError (Game × List UserId) :=
  if user_id ∈ g.pending_users then
    let newPending := g.pending_users.eraseIdx (g.pending_users.indexOf user_id)
    Except.ok ({ g with pending_users := newPending }, newPending)
  else Except.error (DbError.userNotFound user_id)

end GameStatus

/-- Claim C10: for every Game value, regardless of the contents of pending_users and
all_users, get_accepted_users returns the empty list, because its list
comprehension keeps the elements of pending_users that are not in
pending_users; it therefore never returns the users who accepted the invite. -/
theorem C10_get_accepted_users_always_empty (g : Game) :
    g.get_accepted_users = [] := by
  rw [Game.get_accepted_users, List.filter_eq_nil_iff]
  intro a ha
  simp [ha]

/-- Helper: a shadow key is never equal to the game id it shadows, because the
prefix makes it strictly longer. -/
theorem get_shadow_key_ne (game_id : GameId) :
    GameStatus.get_shadow_key game_id ≠ game_id := by
  intro h
  have hl := congrArg String.length h
  rw [GameStatus.get_shadow_key, String.length_append] at hl
  have h10 : ("shadowKey:" : String).length = 10 := rfl
  omega

/-- Claim C9: adding a game and reading back the returned id yields a Game deep
equal to the one stored; the generated id is the only datum the caller gains
and no field of the game is altered by the store round-trip. -/
theorem C9_add_get_roundtrip (db : GameStatus.GameDb) (new_game_id : GameId)
    (game_status : Game) (expire_time : Nat) :
    GameStatus.get (GameStatus.add db new_game_id game_status expire_time).1
      (GameStatus.add db new_game_id game_status expire_time).2 =
      Except.ok game_status := by
  have hne : new_game_id ≠ GameStatus.get_shadow_key new_game_id :=
    fun h => get_shadow_key_ne new_game_id h.symm
  simp [GameStatus.add, GameStatus.get, hne]

/-- Claim C4: the claim that add_notifiction makes the game id present in the
stored notifications list and that remove_notification removes it is refuted
by the source: both redis JSON commands are coroutines that are never
awaited, so the stored record is unchanged.  At the concrete inputs below,
adding to an empty list leaves the store without the entry, and removing an
existing entry reports True yet leaves the entry in the store; the
documented behaviour (add_notifiction_documented) differs. -/
theorem C4_notification_updates_never_reach_store :
    UserStatus.add_notifiction 1
        (some { active_games := [], queued_games := [], notifications := [],
                notification_id := none }) "g" =
      Except.ok { active_games := [], queued_games := [], notifications := [],
                  notification_id := none } ∧
    UserStatus.remove_notification 1
        (some { active_games := [], queued_games := [], notifications := ["g"],
                notification_id := none }) "g" =
      Except.ok ({ active_games := [], queued_games := [],
                   notifications := ["g"], notification_id := none }, true) ∧
    UserStatus.add_notifiction_documented 1
        (some { active_games := [], queued_games := [], notifications := [],
                notification_id := none }) "g" =
      Except.ok { active_games := [], queued_games := [], notifications := ["g"],
                  notification_id := none } := by
  refine ⟨rfl, ?_, ?_⟩ <;> rfl

/-- Claim C7: on an existing session, user_accepted removes the user id from
pending_users (the first occurrence, which under a duplicate-free pending
list is the entry itself) and returns the updated remaining list; when the
user is not pending it raises UserNotFound. -/
theorem C7_user_accepted_spec (g : Game) (user_id : UserId) :
    (user_id ∈ g.pending_users →
      GameStatus.user_accepted g user_id =
        Except.ok ({ g with pending_users := g.pending_users.erase user_id },
          g.pending_users.erase user_id)) ∧
    (g.pending_users.Nodup → user_id ∈ g.pending_users →
      ∃ r, GameStatus.user_accepted g user_id = Except.ok r ∧
        user_id ∉ r.2 ∧ r.1.pending_users = r.2) ∧
    (user_id ∉ g.pending_users →
      GameStatus.user_accepted g user_id =
        Except.error (DbError.userNotFound user_id)) := by
  refine ⟨?_, ?_, ?_⟩
  · intro hmem
    rw [GameStatus.user_accepted]
    simp [hmem, List.eraseIdx_indexOf_eq_erase]
  · intro hnd hmem
    refine ⟨({ g with pending_users := g.pending_users.erase user_id },
      g.pending_users.erase user_id), ?_, ?_, rfl⟩
    · rw [GameStatus.user_accepted]
      simp [hmem, List.eraseIdx_indexOf_eq_erase]
    · exact hnd.not_mem_erase
  · intro hmem
    rw [GameStatus.user_accepted]
    simp [hmem]

/-- Witness for C7 at a concrete session: user 1 is pending and is removed,
user 3 is not pending and UserNotFound is raised. -/
theorem C7_user_accepted_spec_witness :
    GameStatus.user_accepted
        { state := 0, game_module_name := "tic", starting_user := 1,
          all_users := [1, 2], pending_users := [1, 2], usernames := [] } 1 =
      Except.ok
        ({ state := 0, game_module_name := "tic", starting_user := 1,
           all_users := [1, 2], pending_users := [2], usernames := [] }, [2]) ∧
    GameStatus.user_accepted
        { state := 0, game_module_name := "tic", starting_user := 1,
          all_users := [1, 2], pending_users := [1, 2], usernames := [] } 3 =
      Except.error (DbError.userNotFound 3) :=
  ⟨(C7_user_accepted_spec
      { state := 0, game_module_name := "tic", starting_user := 1,
        all_users := [1, 2], pending_users := [1, 2], usernames := [] } 1).1
      (by decide),
   (C7_user_accepted_spec
      { state := 0, game_module_name := "tic", starting_user := 1,
        all_users := [1, 2], pending_users := [1, 2], usernames := [] } 3).2.2
      (by decide)⟩

/-- Claim C2: join_game creates a record with the game as sole active game for an
unknown user; is a no-op success when the game is already in either list;
otherwise appends to active_games when it has room, else to queued_games when
it has room, else returns false leaving the record unchanged.  The two
capacity constants are parameters (the source fixes both to 6). -/
theorem C2_join_game_cases (maxA maxQ : Nat) (game_id : GameId) :
    (UserStatus.join_game maxA maxQ none game_id =
      (some { active_games := [game_id], queued_games := [],
              notifications := [], notification_id := none }, true)) ∧
    (∀ u : User, game_id ∈ u.active_games ∨ game_id ∈ u.queued_games →
      UserStatus.join_game maxA maxQ (some u) game_id = (some u, true)) ∧
    (∀ u : User, game_id ∉ u.active_games → game_id ∉ u.queued_games →
      u.active_games.length < maxA →
      UserStatus.join_game maxA maxQ (some u) game_id =
        (some { u with active_games := u.active_games ++ [game_id] }, true)) ∧
    (∀ u : User, game_id ∉ u.active_games → game_id ∉ u.queued_games →
      maxA ≤ u.active_games.length → u.queued_games.length < maxQ →
      UserStatus.join_game maxA maxQ (some u) game_id =
        (some { u with queued_games := u.queued_games ++ [game_id] }, true)) ∧
    (∀ u : User, game_id ∉ u.active_games → game_id ∉ u.queued_games →
      maxA ≤ u.active_games.length → maxQ ≤ u.queued_games.length →
      UserStatus.join_game maxA maxQ (some u) game_id = (some u, false)) := by
  refine ⟨rfl, ?_, ?_, ?_, ?_⟩
  · intro u h
    rcases h with h | h <;>
      simp [UserStatus.join_game, UserStatus.join_game_existing_user, h]
  · intro u h1 h2 h3
    simp [UserStatus.join_game, UserStatus.join_game_existing_user, h1, h2,
      Nat.not_le.mpr h3]
  · intro u h1 h2 h3 h4
    simp [UserStatus.join_game, UserStatus.join_game_existing_user, h1, h2,
      h3, Nat.not_lt.mpr h3, Nat.not_le.mpr h4]
  · intro u h1 h2 h3 h4
    simp [UserStatus.join_game, UserStatus.join_game_existing_user, h1, h2,
      h3, h4]

/-- Witness for C2, reproducing the spec scenario with maxA = 2 and maxQ = 1:
a user with active games a, b and queued game c is refused a fourth game d
and the record is unchanged. -/
theorem C2_join_game_cases_witness :
    UserStatus.join_game 2 1
        (some { active_games := ["a", "b"], queued_games := ["c"],
                notifications := [], notification_id := none }) "d" =
      (some { active_games := ["a", "b"], queued_games := ["c"],
              notifications := [], notification_id := none }, false) :=
  (C2_join_game_cases 2 1 "d").2.2.2.2
    { active_games := ["a", "b"], queued_games := ["c"],
      notifications := [], notification_id := none }
    (by decide) (by decide) (by decide) (by decide)

/-- Step lemma: an empty user list is ready. -/
theorem check_users_nil (db : UserId → Option User) (game_id : GameId) :
    UserStatus.check_users_are_ready db [] game_id = Except.ok true := rfl

/-- Step lemma: a recordless user at the head raises UserNotFound. -/
theorem check_users_cons_none (db : UserId → Option User) (game_id : GameId)
    (u : UserId) (rest : List UserId) (h : db u = none) :
    UserStatus.check_users_are_ready db (u :: rest) game_id =
      Except.error (DbError.userNotFound u) := by
  rw [UserStatus.check_users_are_ready, h]

/-- Step lemma: a head user whose record lacks the game returns false. -/
theorem check_users_cons_lack (db : UserId → Option User) (game_id : GameId)
    (u : UserId) (rest : List UserId) (st : User) (h : db u = some st)
    (hg : game_id ∉ st.active_games) :
    UserStatus.check_users_are_ready db (u :: rest) game_id =
      Except.ok false := by
  rw [UserStatus.check_users_are_ready, h]
  simp [hg]

/-- Step lemma: a head user whose record has the game defers to the rest. -/
theorem check_users_cons_mem (db : UserId → Option User) (game_id : GameId)
    (u : UserId) (rest : List UserId) (st : User) (h : db u = some st)
    (hg : game_id ∈ st.active_games) :
    UserStatus.check_users_are_ready db (u :: rest) game_id =
      UserStatus.check_users_are_ready db rest game_id := by
  rw [UserStatus.check_users_are_ready, h]
  simp [hg]

/-- Claim C3 counterexample: the claim says a listed user with no record raises
UserNotFound regardless of its position relative to users who merely lack the
game; in the database below user 1 has a record without the game and user 2
has no record at all, yet the call returns ok false instead of raising. -/
theorem C3_check_users_are_ready_counterexample :
    UserStatus.check_users_are_ready
        (fun user_id => if user_id = 1 then
          some { active_games := [], queued_games := [], notifications := [],
                 notification_id := none }
          else none) [1, 2] "g" = Except.ok false ∧
    (fun user_id => if user_id = 1 then
        some { active_games := [], queued_games := [], notifications := [],
               notification_id := none }
        else (none : Option User)) 2 = none ∧
    (2 : UserId) ∈ [1, 2] := by
  refine ⟨rfl, rfl, by decide⟩

/-- Claim C3 amended: check_users_are_ready returns true exactly when every listed
user has a record whose active_games contains the game; it raises UserNotFound
for a recordless user exactly when every earlier user in the list has a record
containing the game, because a user who merely lacks the game short-circuits
the scan with a false return before later recordless users are reached. -/
theorem C3_check_users_are_ready_amended (db : UserId → Option User)
    (user_ids : List UserId) (game_id : GameId) :
    (UserStatus.check_users_are_ready db user_ids game_id = Except.ok true ↔
      ∀ u ∈ user_ids, ∃ st, db u = some st ∧ game_id ∈ st.active_games) ∧
    (∀ uid, UserStatus.check_users_are_ready db user_ids game_id =
        Except.error (DbError.userNotFound uid) ↔
      ∃ pre post, user_ids = pre ++ uid :: post ∧
        (∀ v ∈ pre, ∃ st, db v = some st ∧ game_id ∈ st.active_games) ∧
        db uid = none) := by
  induction user_ids with
  | nil =>
    refine ⟨by simp [check_users_nil], ?_⟩
    intro uid
    rw [check_users_nil]
    constructor
    · intro h
      exact absurd h (by simp)
    · rintro ⟨pre, post, habs, -, -⟩
      exact absurd habs (by simp)
  | cons u rest ih =>
    rcases hdb : db u with - | st
    · refine ⟨?_, ?_⟩
      · rw [check_users_cons_none db game_id u rest hdb]
        constructor
        · intro h
          exact absurd h (by simp)
        · intro hall
          rcases hall u (List.mem_cons_self u rest) with ⟨st, hst, -⟩
          rw [hdb] at hst
          exact absurd hst (by simp)
      · intro uid
        rw [check_users_cons_none db game_id u rest hdb]
        constructor
        · intro h
          have h2 : DbError.userNotFound u = DbError.userNotFound uid :=
            Except.error.inj h
          have h3 : u = uid := by
            injection h2
          subst h3
          exact ⟨[], rest, by simp, by simp, hdb⟩
        · rintro ⟨pre, post, hsplit, hpre, huid⟩
          cases pre with
          | nil =>
            simp only [List.nil_append] at hsplit
            have h3 : u = uid := (List.cons.injEq u rest uid post).mp hsplit |>.1
            subst h3
            rfl
          | cons p pre2 =>
            simp only [List.cons_append] at hsplit
            have h3 : u = p := (List.cons.injEq _ _ _ _).mp hsplit |>.1
            rcases hpre p (List.mem_cons_self p pre2) with ⟨st, hst, -⟩
            rw [← h3, hdb] at hst
            exact absurd hst (by simp)
    · by_cases hmem : game_id ∈ st.active_games
      · refine ⟨?_, ?_⟩
        · rw [check_users_cons_mem db game_id u rest st hdb hmem, ih.1]
          constructor
          · intro hall v hv
            rcases List.mem_cons.mp hv with rfl | hv
            · exact ⟨st, hdb, hmem⟩
            · exact hall v hv
          · intro hall v hv
            exact hall v (List.mem_cons_of_mem u hv)
        · intro uid
          rw [check_users_cons_mem db game_id u rest st hdb hmem, ih.2 uid]
          constructor
          · rintro ⟨pre, post, rfl, hpre, huid⟩
            refine ⟨u :: pre, post, by simp, ?_, huid⟩
            intro v hv
            rcases List.mem_cons.mp hv with rfl | hv
            · exact ⟨st, hdb, hmem⟩
            · exact hpre v hv
          · rintro ⟨pre, post, hsplit, hpre, huid⟩
            cases pre with
            | nil =>
              simp only [List.nil_append] at hsplit
              have h3 : u = uid := (List.cons.injEq _ _ _ _).mp hsplit |>.1
              subst h3
              rw [hdb] at huid
              exact absurd huid (by simp)
            | cons p pre2 =>
              simp only [List.cons_append] at hsplit
              rcases (List.cons.injEq _ _ _ _).mp hsplit with ⟨rfl, hsplit2⟩
              exact ⟨pre2, post, hsplit2, fun v hv =>
                hpre v (List.mem_cons_of_mem u hv), huid⟩
      · refine ⟨?_, ?_⟩
        · rw [check_users_cons_lack db game_id u rest st hdb hmem]
          constructor
          · intro h
            exact absurd h (by simp)
          · intro hall
            rcases hall u (List.mem_cons_self u rest) with ⟨st2, hst2, hm2⟩
            rw [hdb] at hst2
            have h3 : st = st2 := Option.some.inj hst2
            subst h3
            exact absurd hm2 hmem
        · intro uid
          rw [check_users_cons_lack db game_id u rest st hdb hmem]
          constructor
          · intro h
            exact absurd h (by simp)
          · rintro ⟨pre, post, hsplit, hpre, huid⟩
            cases pre with
            | nil =>
              simp only [List.nil_append] at hsplit
              have h3 : u = uid := (List.cons.injEq _ _ _ _).mp hsplit |>.1
              subst h3
              rw [hdb] at huid
              exact absurd huid (by simp)
            | cons p pre2 =>
              simp only [List.cons_append] at hsplit
              rcases (List.cons.injEq _ _ _ _).mp hsplit with ⟨rfl, -⟩
              rcases hpre u (List.mem_cons_self u pre2) with ⟨st2, hst2, hm2⟩
              rw [hdb] at hst2
              have h3 : st = st2 := Option.some.inj hst2
              subst h3
              exact absurd hm2 hmem

/-- Witness for C3 amended: a database where user 1 has the game active and
user 2 has no record; the scan passes user 1 and raises UserNotFound for
user 2. -/
theorem C3_check_users_are_ready_amended_witness :
    UserStatus.check_users_are_ready
        (fun user_id => if user_id = 1 then
          some { active_games := ["g"], queued_games := [], notifications := [],
                 notification_id := none }
          else none) [1, 2] "g" =
      Except.error (DbError.userNotFound 2) :=
  ((C3_check_users_are_ready_amended
      (fun user_id => if user_id = 1 then
        some { active_games := ["g"], queued_games := [], notifications := [],
               notification_id := none }
        else none) [1, 2] "g").2 2).mpr
    ⟨[1], [], by decide, by
      intro v hv
      have hv1 : v = 1 := by
        cases hv with
        | head => rfl
        | tail _ h => exact absurd h (List.not_mem_nil v)
      subst hv1
      exact ⟨_, rfl, by decide⟩, rfl⟩

/-- Step lemma: a successful body run returns its value after one more run. -/
theorem pipeline_watch_loop_ok {α : Type} (attempts : Nat → Option α)
    (keyExists : Nat → Bool) (m : Int) (i : Nat) (v : α)
    (h1 : keyExists i = true) (h2 : m > -1) (h3 : attempts i = some v) :
    pipeline_watch_loop attempts keyExists m i = (WatchOutcome.ok v, i + 1) := by
  rw [pipeline_watch_loop.eq_def]
  simp [h1, h2, h3]

/-- Step lemma: a conflicting write makes the loop rerun the body with one
retry less. -/
theorem pipeline_watch_loop_retry {α : Type} (attempts : Nat → Option α)
    (keyExists : Nat → Bool) (m : Int) (i : Nat)
    (h1 : keyExists i = true) (h2 : m > -1) (h3 : attempts i = none) :
    pipeline_watch_loop attempts keyExists m i =
      pipeline_watch_loop attempts keyExists (m - 1) (i + 1) := by
  rw [pipeline_watch_loop.eq_def]
  simp [h1, h2, h3]

/-- Step lemma: a negative retry counter raises the exhaustion error without
running the body. -/
theorem pipeline_watch_loop_exhausted {α : Type} (attempts : Nat → Option α)
    (keyExists : Nat → Bool) (m : Int) (i : Nat)
    (h1 : keyExists i = true) (h2 : ¬m > -1) :
    pipeline_watch_loop attempts keyExists m i = (WatchOutcome.exhausted, i) := by
  rw [pipeline_watch_loop.eq_def]
  simp [h1, h2]

/-- Step lemma: a missing key raises the configured not-found error. -/
theorem pipeline_watch_loop_notfound {α : Type} (attempts : Nat → Option α)
    (keyExists : Nat → Bool) (m : Int) (i : Nat)
    (h1 : ¬keyExists i = true) :
    pipeline_watch_loop attempts keyExists m i = (WatchOutcome.keyNotFound, i) := by
  rw [pipeline_watch_loop.eq_def]
  simp [h1]

/-- Helper: the run counter never moves backwards. -/
theorem pipeline_watch_loop_runs_ge {α : Type} (attempts : Nat → Option α)
    (keyExists : Nat → Bool) : ∀ (m : Int) (i : Nat),
    i ≤ (pipeline_watch_loop attempts keyExists m i).2 := by
  intro m i
  induction m, i using pipeline_watch_loop.induct attempts keyExists with
  | case1 m i h1 h2 v h3 =>
    rw [pipeline_watch_loop_ok attempts keyExists m i v h1 h2 h3]
    exact Nat.le_succ i
  | case2 m i h1 h2 h3 ih =>
    rw [pipeline_watch_loop_retry attempts keyExists m i h1 h2 h3]
    omega
  | case3 m i h1 h2 =>
    rw [pipeline_watch_loop_exhausted attempts keyExists m i h1 h2]
  | case4 m i h1 =>
    rw [pipeline_watch_loop_notfound attempts keyExists m i h1]

/-- Helper: one more body run happens whenever the key exists and the counter
is not yet negative. -/
theorem pipeline_watch_loop_runs_pos {α : Type} (attempts : Nat → Option α)
    (keyExists : Nat → Bool) (m : Int) (i : Nat)
    (h1 : keyExists i = true) (h2 : m > -1) :
    i + 1 ≤ (pipeline_watch_loop attempts keyExists m i).2 := by
  cases h3 : attempts i with
  | some v =>
    rw [pipeline_watch_loop_ok attempts keyExists m i v h1 h2 h3]
  | none =>
    rw [pipeline_watch_loop_retry attempts keyExists m i h1 h2 h3]
    exact pipeline_watch_loop_runs_ge attempts keyExists (m - 1) (i + 1)

/-- Helper: the number of body runs is bounded by the retry budget plus the
starting index. -/
theorem pipeline_watch_loop_runs_le {α : Type} (attempts : Nat → Option α)
    (keyExists : Nat → Bool) : ∀ (m : Int) (i : Nat),
    (pipeline_watch_loop attempts keyExists m i).2 ≤ i + (m + 1).toNat := by
  intro m i
  induction m, i using pipeline_watch_loop.induct attempts keyExists with
  | case1 m i h1 h2 v h3 =>
    rw [pipeline_watch_loop_ok attempts keyExists m i v h1 h2 h3]
    omega
  | case2 m i h1 h2 h3 ih =>
    rw [pipeline_watch_loop_retry attempts keyExists m i h1 h2 h3]
    omega
  | case3 m i h1 h2 =>
    rw [pipeline_watch_loop_exhausted attempts keyExists m i h1 h2]
    omega
  | case4 m i h1 =>
    rw [pipeline_watch_loop_notfound attempts keyExists m i h1]
    omega

/-- Helper: when the key always exists and every run hits a conflicting
write, the loop ends in exhaustion after consuming the whole budget. -/
theorem pipeline_watch_loop_all_conflict {α : Type} (attempts : Nat → Option α)
    (keyExists : Nat → Bool) (hex : ∀ j, keyExists j = true)
    (hall : ∀ j, attempts j = none) : ∀ (m : Int) (i : Nat),
    pipeline_watch_loop attempts keyExists m i =
      (WatchOutcome.exhausted, i + (m + 1).toNat) := by
  intro m i
  induction m, i using pipeline_watch_loop.induct attempts keyExists with
  | case1 m i h1 h2 v h3 =>
    rw [hall i] at h3
    exact absurd h3 (by simp)
  | case2 m i h1 h2 h3 ih =>
    rw [pipeline_watch_loop_retry attempts keyExists m i h1 h2 h3, ih]
    have harith : i + 1 + (m - 1 + 1).toNat = i + (m + 1).toNat := by omega
    rw [harith]
  | case3 m i h1 h2 =>
    rw [pipeline_watch_loop_exhausted attempts keyExists m i h1 h2]
    have harith : (m + 1).toNat = 0 := by omega
    rw [harith]
    simp
  | case4 m i h1 =>
    exact absurd (hex i) h1

/-- Claim C1: for a call wrapped by pipeline_watch on a key that exists, a
conflicting concurrent write makes the whole body run again; the number of
reruns is bounded by the configured max_retries (so at most max_retries + 1
runs in total), and when every run conflicts the call ends in the
retry-exhaustion error (the raised WatchError("Max retries reached"), the
ConcurrencyExhausted of the spec) after exactly max_retries reruns, never in
a silent success. -/
theorem C1_pipeline_watch_retry_bound {α : Type} (attempts : Nat → Option α)
    (keyExists : Nat → Bool) (max_retries : Nat)
    (hex : ∀ i, keyExists i = true) :
    (pipeline_watch_call attempts keyExists max_retries).2 ≤ max_retries + 1 ∧
    (1 ≤ max_retries → attempts 0 = none →
      2 ≤ (pipeline_watch_call attempts keyExists max_retries).2) ∧
    ((∀ i, attempts i = none) →
      pipeline_watch_call attempts keyExists max_retries =
        (WatchOutcome.exhausted, max_retries + 1)) := by
  refine ⟨?_, ?_, ?_⟩
  · have h := pipeline_watch_loop_runs_le attempts keyExists max_retries 0
    rw [pipeline_watch_call]
    omega
  · intro hge h0
    rw [pipeline_watch_call,
      pipeline_watch_loop_retry attempts keyExists max_retries 0 (hex 0)
        (by omega) h0]
    have h := pipeline_watch_loop_runs_pos attempts keyExists
      ((max_retries : Int) - 1) 1 (hex 1) (by omega)
    simpa using h
  · intro hall
    rw [pipeline_watch_call,
      pipeline_watch_loop_all_conflict attempts keyExists hex hall]
    have harith : 0 + ((max_retries : Int) + 1).toNat = max_retries + 1 := by
      omega
    rw [harith]

/-- Witness for C1 with the default budget of 5 retries: every run conflicts,
the body runs 6 times (1 initial + 5 reruns) and the call ends exhausted. -/
theorem C1_pipeline_watch_retry_bound_witness :
    pipeline_watch_call (fun _ => (none : Option Nat)) (fun _ => true) 5 =
      (WatchOutcome.exhausted, 6) :=
  (C1_pipeline_watch_retry_bound (fun _ => (none : Option Nat)) (fun _ => true)
    5 (fun _ => rfl)).2.2 (fun _ => rfl)

/-- Closed form of the promotion loop: it moves exactly the head prefix of
the queue that fits into the free active slots. -/
theorem move_up_games_loop_spec (maxA : Nat) :
    ∀ (queued active moved : List GameId),
    UserStatus.move_up_games_loop maxA active queued moved =
      (active ++ queued.take (min (maxA - active.length) queued.length),
       queued.drop (min (maxA - active.length) queued.length),
       moved ++ queued.take (min (maxA - active.length) queued.length)) := by
  intro queued
  induction queued with
  | nil =>
    intro active moved
    unfold UserStatus.move_up_games_loop
    simp
  | cons q rest ih =>
    intro active moved
    unfold UserStatus.move_up_games_loop
    by_cases h : active.length < maxA
    · have hk : min (maxA - active.length) (rest.length + 1)
          = min (maxA - (active.length + 1)) rest.length + 1 := by omega
      simp only [h, if_true, ih (active ++ [q]) (moved ++ [q])]
      simp [hk, List.take_succ_cons, List.drop_succ_cons, List.append_assoc]
    · have hk : maxA - active.length = 0 := by omega
      simp [h, hk]

/-- The ids the promotion is meant to move for a record: the longest head
prefix of queued_games that fits into the free active slots. -/
def promoted_ids (maxA : Nat) (v : User) : List GameId :=
  v.queued_games.take
    (min (maxA - v.active_games.length) v.queued_games.length)

/-- Closed form of __move_up_games on an existing record. -/
theorem move_up_games_some (maxA : Nat) (user_id : UserId) (v : User) :
    UserStatus.move_up_games maxA user_id (some v) =
      Except.ok
        ({ v with
           active_games := v.active_games ++ promoted_ids maxA v,
           queued_games := v.queued_games.drop
             (min (maxA - v.active_games.length) v.queued_games.length) },
         promoted_ids maxA v) := by
  rw [UserStatus.move_up_games]
  rw [move_up_games_loop_spec maxA v.queued_games v.active_games []]
  rfl

/-- The game-list total shrinks by exactly one when the game is present. -/
theorem remove_from_lists_total (u : User) (game_id : GameId)
    (hmem : game_id ∈ u.active_games ∨ game_id ∈ u.queued_games) :
    (UserStatus.remove_from_lists u game_id).active_games.length +
        (UserStatus.remove_from_lists u game_id).queued_games.length + 1 =
      u.active_games.length + u.queued_games.length := by
  rw [UserStatus.remove_from_lists]
  by_cases hin : game_id ∈ u.active_games
  · have hpos : 0 < u.active_games.length := List.length_pos_of_mem hin
    simp [hin, List.length_erase]
    omega
  · have hq : game_id ∈ u.queued_games := hmem.resolve_left hin
    have hpos : 0 < u.queued_games.length := List.length_pos_of_mem hq
    simp [hin, List.length_erase, hq]
    omega

/-- The record __remove_game writes before promotion: the game id removed
from its list and from notifications when present there. -/
def after_notif (u : User) (game_id : GameId) : User :=
  if game_id ∈ u.notifications then
    { UserStatus.remove_from_lists u game_id with
      notifications :=
        (UserStatus.remove_from_lists u game_id).notifications.erase game_id }
  else UserStatus.remove_from_lists u game_id

/-- Computation lemma for __remove_game in the branch where the record
survives: the result is the post-removal record with the fitting head prefix
of the queue promoted. -/
theorem remove_game_some_eq (maxA : Nat) (game_id : GameId) (user_id : UserId)
    (u : User)
    (hcond : ¬(game_id ∉ u.active_games ∧ game_id ∉ u.queued_games))
    (hdel : ¬(u.active_games.length + u.queued_games.length = 1)) :
    UserStatus.remove_game maxA game_id user_id (some u) =
      Except.ok
        (some { after_notif u game_id with
                active_games :=
                  (after_notif u game_id).active_games ++
                    promoted_ids maxA (after_notif u game_id),
                queued_games :=
                  (after_notif u game_id).queued_games.drop
                    (min (maxA - (after_notif u game_id).active_games.length)
                      (after_notif u game_id).queued_games.length) },
         some (promoted_ids maxA (after_notif u game_id)),
         decide (game_id ∈ u.notifications)) := by
  rw [UserStatus.remove_game]
  simp only [hcond, if_false, hdel, move_up_games_some, after_notif]

/-- Helper: removing the game and possibly a notification entry does not
change which games are active or queued beyond the removal itself. -/
theorem after_notif_games (u : User) (game_id : GameId) :
    (after_notif u game_id).active_games =
      (UserStatus.remove_from_lists u game_id).active_games ∧
    (after_notif u game_id).queued_games =
      (UserStatus.remove_from_lists u game_id).queued_games := by
  rw [after_notif]
  by_cases h : game_id ∈ u.notifications <;> simp [h]

/-- Claim C5: when __remove_game takes a game away from a user, a removal that
leaves zero games in active_games plus queued_games deletes the record (the
stored state becomes absent), and otherwise promotion moves queued ids
head-first (strict FIFO) into active_games only while it has room, so
active_games never exceeds the maximum. -/
theorem C5_remove_game_deletion_and_fifo_promotion (maxA : Nat)
    (game_id : GameId) (user_id : UserId) (u : User)
    (hmem : game_id ∈ u.active_games ∨ game_id ∈ u.queued_games)
    (hlen : u.active_games.length ≤ maxA) :
    ((UserStatus.remove_from_lists u game_id).active_games.length +
        (UserStatus.remove_from_lists u game_id).queued_games.length = 0 →
      UserStatus.remove_game maxA game_id user_id (some u) =
        Except.ok (none, none, decide (game_id ∈ u.notifications))) ∧
    ((UserStatus.remove_from_lists u game_id).active_games.length +
        (UserStatus.remove_from_lists u game_id).queued_games.length ≠ 0 →
      ∃ u2,
        UserStatus.remove_game maxA game_id user_id (some u) =
          Except.ok (some u2,
            some (promoted_ids maxA (UserStatus.remove_from_lists u game_id)),
            decide (game_id ∈ u.notifications)) ∧
        u2.active_games =
          (UserStatus.remove_from_lists u game_id).active_games ++
            promoted_ids maxA (UserStatus.remove_from_lists u game_id) ∧
        u2.queued_games =
          (UserStatus.remove_from_lists u game_id).queued_games.drop
            (promoted_ids maxA (UserStatus.remove_from_lists u game_id)).length ∧
        u2.active_games.length ≤ maxA) := by
  have hcond : ¬(game_id ∉ u.active_games ∧ game_id ∉ u.queued_games) := by
    rcases hmem with h | h
    · exact fun hc => hc.1 h
    · exact fun hc => hc.2 h
  have htot := remove_from_lists_total u game_id hmem
  have hgames := after_notif_games u game_id
  constructor
  · intro h0
    have hdel : u.active_games.length + u.queued_games.length = 1 := by omega
    rw [UserStatus.remove_game]
    simp [hcond, hdel]
  · intro h0
    have hdel : ¬(u.active_games.length + u.queued_games.length = 1) := by omega
    have hpid : promoted_ids maxA (after_notif u game_id) =
        promoted_ids maxA (UserStatus.remove_from_lists u game_id) := by
      rw [promoted_ids, promoted_ids, hgames.1, hgames.2]
    have hva : (UserStatus.remove_from_lists u game_id).active_games.length ≤ maxA := by
      rw [UserStatus.remove_from_lists]
      by_cases hin : game_id ∈ u.active_games
      · simp [hin, List.length_erase]
        omega
      · simp [hin]
        exact hlen
    have heq := remove_game_some_eq maxA game_id user_id u hcond hdel
    rw [hpid] at heq
    refine ⟨_, heq, ?_, ?_, ?_⟩
    · simp [hgames.1]
    · simp [hgames.1, hgames.2, promoted_ids, List.length_take, Nat.min_assoc,
        Nat.min_self]
    · simp [hgames.1, List.length_append, promoted_ids, List.length_take]
      omega

/-- Witness for C5 with maxA = 2: removing the only active game "x" promotes
both queued games head-first; the record survives and active_games stays
within the maximum. -/
theorem C5_remove_game_deletion_and_fifo_promotion_witness :
    ∃ u2, UserStatus.remove_game 2 "x" 7
        (some { active_games := ["x"], queued_games := ["q1", "q2"],
                notifications := [], notification_id := none }) =
        Except.ok (some u2, some ["q1", "q2"], false) ∧
      u2.active_games = ["q1", "q2"] ∧ u2.queued_games = ([] : List GameId) ∧
      u2.active_games.length ≤ 2 := by
  obtain ⟨u2, h1, h2, h3, h4⟩ :=
    (C5_remove_game_deletion_and_fifo_promotion 2 "x" 7
      { active_games := ["x"], queued_games := ["q1", "q2"],
        notifications := [], notification_id := none }
      (Or.inl (by decide)) (by decide)).2 (by decide)
  exact ⟨u2, h1, h2, h3, h4⟩

/-- Claim C6 evaluated on the faithful model, at the spec scenario: user 1
has the game queued with room in active, user 2 has no record at all.
Because __remove_game is wrapped by pipeline_watch with the default
key_not_found_excepton, a recordless user raises ValueError, which the except
clauses of clear_game (GameNotFound, UserNotFound) do not catch: the batch
aborts with the remaining users unprocessed, so an exception does escape,
contradicting the claim.  Processing user 1 alone succeeds and promotes a
queued id, showing the abort is what loses the remaining work. -/
theorem C6_clear_game_batch_aborted_by_recordless_user :
    UserStatus.clear_game 2
        (fun user_id => if user_id = 1 then
          some { active_games := ["a"], queued_games := ["x", "b"],
                 notifications := [], notification_id := none }
          else none) [2, 1] "x" =
      Except.error (DbError.valueError "key user_id not found in db") ∧
    (UserStatus.clear_game 2
        (fun user_id => if user_id = 1 then
          some { active_games := ["a"], queued_games := ["x", "b"],
                 notifications := [], notification_id := none }
          else none) [1] "x").map (fun r => (r.2.1, r.2.2)) =
      Except.ok ((["b"] : List GameId), ([] : List UserId)) := by
  constructor
  · rfl
  · have hdb : (if (1 : UserId) = 1 then
        some { active_games := ["a"], queued_games := ["x", "b"],
               notifications := [], notification_id := none }
        else (none : Option User)) =
        some { active_games := ["a"], queued_games := ["x", "b"],
               notifications := [], notification_id := none } := rfl
    have h1 := remove_game_some_eq 2 "x" 1
      { active_games := ["a"], queued_games := ["x", "b"],
        notifications := [], notification_id := none }
      (by decide) (by decide)
    rw [UserStatus.clear_game, UserStatus.clear_game_loop, hdb, h1]
    rfl

/-- Invariant of a user record under join_game: no game id sits in both
lists, and each list respects its own bound. -/
def UserInv (maxA maxQ : Nat) (u : User) : Prop :=
  u.active_games.Disjoint u.queued_games ∧
  u.active_games.length ≤ maxA ∧ u.queued_games.length ≤ maxQ

/-- A fresh record made by join_game for an unknown user satisfies the
invariant as soon as one active slot exists. -/
theorem userInv_new (maxA maxQ : Nat) (hA : 1 ≤ maxA) (game_id : GameId) :
    UserInv maxA maxQ (UserStatus.join_game_new_user game_id) := by
  refine ⟨?_, ?_, ?_⟩
  · intro a ha hb
    exact absurd hb (List.not_mem_nil a)
  · simpa [UserStatus.join_game_new_user] using hA
  · simp [UserStatus.join_game_new_user]

/-- join_game on an existing record preserves the invariant. -/
theorem userInv_join_existing (maxA maxQ : Nat) (u : User) (game_id : GameId)
    (h : UserInv maxA maxQ u) :
    UserInv maxA maxQ
      (UserStatus.join_game_existing_user maxA maxQ u game_id).1 := by
  obtain ⟨hdisj, hA, hQ⟩ := h
  rw [UserStatus.join_game_existing_user]
  by_cases hmem : game_id ∉ u.active_games ∧ game_id ∉ u.queued_games
  · simp only [hmem, if_true]
    by_cases hful : u.active_games.length ≥ maxA
    · by_cases hqful : u.queued_games.length ≥ maxQ
      · simp only [hful, hqful, if_true]
        exact ⟨hdisj, hA, hQ⟩
      · simp only [hful, hqful, if_true, if_false]
        refine ⟨?_, hA, ?_⟩
        · intro a ha hb
          rcases List.mem_append.mp hb with hb | hb
          · exact hdisj ha hb
          · rw [List.mem_singleton] at hb
            subst hb
            exact hmem.1 ha
        · simp
          omega
    · simp only [hful, if_false]
      refine ⟨?_, ?_, hQ⟩
      · intro a ha hb
        rcases List.mem_append.mp ha with ha | ha
        · exact hdisj ha hb
        · rw [List.mem_singleton] at ha
          subst ha
          exact hmem.2 hb
      · simp
        omega
  · simp only [hmem, if_false]
    exact ⟨hdisj, hA, hQ⟩

/-- join_game preserves the invariant on the optional record. -/
theorem userInv_join (maxA maxQ : Nat) (hA : 1 ≤ maxA) (st : Option User)
    (game_id : GameId) (h : ∀ u, st = some u → UserInv maxA maxQ u) :
    ∀ u, (UserStatus.join_game maxA maxQ st game_id).1 = some u →
      UserInv maxA maxQ u := by
  intro u hu
  cases st with
  | none =>
    rw [UserStatus.join_game] at hu
    cases hu
    exact userInv_new maxA maxQ hA game_id
  | some v =>
    rw [UserStatus.join_game] at hu
    cases hu
    exact userInv_join_existing maxA maxQ v game_id (h v rfl)

/-- Folding a whole sequence of join_game calls over a stored record. -/
def join_games (maxA maxQ : Nat) (st : Option User) (game_ids : List GameId) :
    Option User :=
  List.foldl (fun s g => (UserStatus.join_game maxA maxQ s g).1) st game_ids

/-- The invariant is preserved by any sequence of join_game calls. -/
theorem userInv_join_games (maxA maxQ : Nat) (hA : 1 ≤ maxA) :
    ∀ (game_ids : List GameId) (st : Option User),
    (∀ u, st = some u → UserInv maxA maxQ u) →
    ∀ v, join_games maxA maxQ st game_ids = some v → UserInv maxA maxQ v := by
  intro game_ids
  induction game_ids with
  | nil =>
    intro st hst v hv
    exact hst v hv
  | cons g rest ih =>
    intro st hst v hv
    rw [join_games, List.foldl_cons] at hv
    exact ih (UserStatus.join_game maxA maxQ st g).1
      (userInv_join maxA maxQ hA st g hst) v hv

/-- Claim C8: starting from no record (or any record satisfying the invariant),
every sequence of join_game calls keeps every game id out of at least one of
the two lists (no id is both active and queued) and keeps the total number of
entries within maxA + maxQ. -/
theorem C8_join_game_invariant (maxA maxQ : Nat) (hA : 1 ≤ maxA)
    (st : Option User) (hst : ∀ u, st = some u → UserInv maxA maxQ u)
    (game_ids : List GameId) (u : User)
    (hu : join_games maxA maxQ st game_ids = some u) :
    u.active_games.Disjoint u.queued_games ∧
    u.active_games.length + u.queued_games.length ≤ maxA + maxQ := by
  obtain ⟨hdisj, h1, h2⟩ :=
    userInv_join_games maxA maxQ hA game_ids st hst u hu
  exact ⟨hdisj, by omega⟩

/-- Witness for C8: from no record, joining a and then b yields a record with
disjoint lists and at most maxA + maxQ entries (source constants 6 and 6). -/
theorem C8_join_game_invariant_witness :
    (["a", "b"] : List GameId).Disjoint ([] : List GameId) ∧
    (["a", "b"] : List GameId).length + ([] : List GameId).length ≤ 6 + 6 := by
  have h := C8_join_game_invariant 6 6 (by decide) none
    (fun u hu => Option.noConfusion hu) ["a", "b"]
    { active_games := ["a", "b"], queued_games := [], notifications := [],
      notification_id := none } (by decide)
  exact h
